import Mathlib

/-!
Verification of the survey-scraper repository (sources: Github-app.py and
biosample_scraper.py). The Python code is shallowly embedded below: an HTML
document parsed by BeautifulSoup is modelled by the three projections the
code reads from it (the whole-document text, the cell texts of each table,
and the texts of paragraph and list-item elements); pandas data frames are
modelled as lists of rows; the regular-expression searches of the code are
implemented directly over lists of characters.
-/

namespace AGP

/-! ### Python string primitives -/

/-- Whitespace test used by Python str.strip. -/
def isWS (c : Char) : Bool := c.isWhitespace

/-- Python str.lstrip: drop leading whitespace. -/
def lstripChars (l : List Char) : List Char := l.dropWhile isWS

/-- Python str.rstrip: drop trailing whitespace. -/
def rstripChars : List Char → List Char
  | [] => []
  | c :: t =>
    match rstripChars t with
    | [] => if isWS c then [] else [c]
    | h :: r => c :: h :: r

/-- Python str.strip: drop leading and trailing whitespace. -/
def stripChars (l : List Char) : List Char := rstripChars (lstripChars l)

/-- Python str.strip on strings. -/
def pyStrip (s : String) : String := String.mk (stripChars s.data)

/-- Python str.lower (ASCII fragment). -/
def pyLower (s : String) : String := String.mk (s.data.map Char.toLower)

/-- Python str.split(sep): split a character list at every separator. -/
def splitOnChar (sep : Char) : List Char → List (List Char)
  | [] => [[]]
  | c :: t =>
    match splitOnChar sep t with
    | [] => if c = sep then [[], []] else [[c]]
    | h :: r => if c = sep then [] :: h :: r else (c :: h) :: r

/-! ### sanitize_sheet_name (Github-app.py lines 25-28) -/

/-- The character class of the regex in sanitize_sheet_name. -/
def isInvalidSheetChar (c : Char) : Bool :=
  c = ':' || c = '\\' || c = '/' || c = '?' || c = '*' || c = '[' || c = ']'

/-- The re.sub call of sanitize_sheet_name: replace every invalid character
with a dash. -/
def replaceInvalid (l : List Char) : List Char :=
  l.map (fun c => if isInvalidSheetChar c then '-' else c)

/-- The character-level pipeline of sanitize_sheet_name: replace, strip,
truncate to 31 characters. -/
def sanitizeCore (l : List Char) : List Char :=
  (stripChars (replaceInvalid l)).take 31

/-- sanitize_sheet_name from Github-app.py: replace the invalid characters
with a dash, strip whitespace, truncate to 31 characters, and fall back to
the placeholder when the result is the empty (falsy) string. -/
def sanitize_sheet_name (s : String) : String :=
  let t := sanitizeCore s.data
  if t = [] then "sheet" else String.mk t

/-! ### Identifier extraction (Github-app.py lines 57-63)

The code runs three re.search calls with the IGNORECASE flag:
  Biosample[:\t ]+([A-Za-z0-9_-]+)
  Accession[:\t ]+([A-Za-z0-9._-]+)
  (Sample ID|Barcode)[:\t ]+([A-Za-z0-9._-]+)
Each pattern is a case-insensitive literal label, one or more separator
characters, and a captured maximal token; the searches below implement
exactly that, trying each start position from the left as re.search does. -/

/-- The separator class [:\t ] of the identifier patterns. -/
def isSepChar (c : Char) : Bool := c = ':' || c = '\t' || c = ' '

/-- The token class [A-Za-z0-9_-] of the Biosample pattern. -/
def isIdChar (c : Char) : Bool := c.isAlphanum || c = '_' || c = '-'

/-- The token class [A-Za-z0-9._-] of the Accession and Sample ID patterns. -/
def isIdDotChar (c : Char) : Bool := isIdChar c || c = '.'

/-- Case-insensitive literal match of a pattern against a prefix of the
text, returning the rest of the text on success (the IGNORECASE flag folds
both sides). -/
def matchLitI : List Char → List Char → Option (List Char)
  | [], s => some s
  | _ :: _, [] => none
  | p :: ps, c :: cs => if c.toLower = p.toLower then matchLitI ps cs else none

/-- Match one identifier pattern at the current position: the literal label,
then one or more separator characters, then the captured maximal token run
(the separator and token classes are disjoint, so the greedy regex behaves
exactly like this two-phase scan). -/
def matchLabelTok (lab : List Char) (tokP : Char → Bool) (s : List Char) :
    Option (List Char) :=
  match matchLitI lab s with
  | none => none
  | some rest =>
    let seps := rest.takeWhile isSepChar
    if seps = [] then none
    else
      let tok := (rest.drop seps.length).takeWhile tokP
      if tok = [] then none else some tok

/-- re.search: try the position matcher at every start position from the
left and return the first capture. -/
def reSearchWith (f : List Char → Option (List Char)) : List Char → Option (List Char)
  | [] => f []
  | c :: cs =>
    match f (c :: cs) with
    | some tok => some tok
    | none => reSearchWith f cs

/-- The Biosample search of parse_survey_page. -/
def biosampleSearch (s : List Char) : Option (List Char) :=
  reSearchWith (matchLabelTok "Biosample".data isIdChar) s

/-- The Accession search of parse_survey_page. -/
def accessionSearch (s : List Char) : Option (List Char) :=
  reSearchWith (matchLabelTok "Accession".data isIdDotChar) s

/-- The alternation (Sample ID|Barcode) tried at one position: the left
alternative first, as the regex engine does. -/
def sampleBarcodeAlt (s : List Char) : Option (List Char) :=
  match matchLabelTok "Sample ID".data isIdDotChar s with
  | some tok => some tok
  | none => matchLabelTok "Barcode".data isIdDotChar s

/-- The (Sample ID|Barcode) search of parse_survey_page. -/
def sampleIdSearch (s : List Char) : Option (List Char) :=
  reSearchWith sampleBarcodeAlt s

/-- Lines 61-63 of Github-app.py: biosample group(1) if present, else
sample_id group(2) if present, else None; accession group(1) or None. -/
def extractIds (text : String) : Option String × Option String :=
  let b := biosampleSearch text.data
  let sid := sampleIdSearch text.data
  let acc := accessionSearch text.data
  (match b with
   | some tok => some (String.mk tok)
   | none =>
     match sid with
     | some tok => some (String.mk tok)
     | none => none,
   acc.map String.mk)

/-! ### parse_survey_page (Github-app.py lines 53-97) -/

/-- One HTML table as the code sees it: the list of its tr elements in
document order, each giving the stripped texts of its td and th cells. -/
abbrev HtmlTable := List (List String)

/-- A parsed HTML document, modelled by the three projections the code
reads from the BeautifulSoup object: get_text of the whole document,
find_all of tables, and get_text of each paragraph and list-item element. -/
structure Doc where
  fullText : String
  tables : List HtmlTable
  paraTexts : List String

/-- The survey DataFrame returned by parse_survey_page: the question and
response columns row by row (a cell is none where pandas holds NaN), plus
the three page-level columns broadcast over every row. -/
structure SurveyTable where
  rows : List (Option String × Option String)
  biosample_id : Option String
  accession_id : Option String
  source_url : String
deriving DecidableEq

/-- The row-collection loop over the best table: a tr contributes its cell
texts, and a tr with no cells is skipped (the `if cols` test). -/
def keptRows (t : HtmlTable) : List (List String) :=
  t.filter (fun r => !r.isEmpty)

/-- df.shape[1] of pd.DataFrame(rows): pandas pads ragged rows, so the
column count is the maximum row length (zero when there are no rows). -/
def tableWidth (rows : List (List String)) : Nat :=
  rows.foldl (fun m r => max m r.length) 0

/-- Python max(tables, key=row count): the first table with the maximal
number of tr elements (max keeps the earlier element on ties). -/
def bestTable (t : HtmlTable) (ts : List HtmlTable) : HtmlTable :=
  ts.foldl (fun b t2 => if b.length < t2.length then t2 else b) t

/-- The table strategy of parse_survey_page: pick the largest table, collect
its non-empty rows, and when the resulting frame has at least two columns
keep the first two cells of every row (pandas pads a one-cell row with NaN
in the second column). Returns none when no table qualifies. -/
def tableSurvey : List HtmlTable → Option (List (Option String × Option String))
  | [] => none
  | t :: ts =>
    let rows := keptRows (bestTable t ts)
    if 2 ≤ tableWidth rows then
      some (rows.map (fun r => (r.get? 0, r.get? 1)))
    else none

/-- Colon test used by the free-text fallback. -/
def isColon (c : Char) : Bool := c = ':'

/-- The free-text fallback of parse_survey_page: every paragraph or
list-item text containing a colon is split at the first colon and both
halves are stripped; texts without a colon are skipped. -/
def textSurvey (texts : List String) : List (Option String × Option String) :=
  texts.filterMap (fun s =>
    if s.data.any isColon then
      some (some (String.mk (stripChars (s.data.takeWhile (fun c => !isColon c)))),
            some (String.mk (stripChars ((s.data.dropWhile (fun c => !isColon c)).drop 1))))
    else none)

/-- parse_survey_page from Github-app.py: extract the identifiers from the
whole-document text, take the table strategy's rows when it produced any
and the free-text fallback's rows otherwise, and attach the page-level
columns. -/
def parse_survey_page (doc : Doc) (url : String) : SurveyTable :=
  let ids := extractIds doc.fullText
  { rows := (tableSurvey doc.tables).getD (textSurvey doc.paraTexts)
    biosample_id := ids.1
    accession_id := ids.2
    source_url := url }

/-- One row of the survey DataFrame viewed as a flat record. -/
structure SurveyRecord where
  question : Option String
  response : Option String
  biosample_id : Option String
  accession_id : Option String
  source_url : String
deriving DecidableEq

/-- The rows of a SurveyTable as flat records, each carrying the broadcast
page-level columns. -/
def SurveyTable.records (st : SurveyTable) : List SurveyRecord :=
  st.rows.map (fun qr => ⟨qr.1, qr.2, st.biosample_id, st.accession_id, st.source_url⟩)

/-! ### filter_responses (Github-app.py lines 121-130)

pandas Series.str.contains interprets its argument as a regular expression
(regex=True is the default). The fragment of the regex language needed by
the claims - literal characters and the dot - is modelled below; a pattern
using any other metacharacter is outside the model. -/

/-- One regex atom of the modelled fragment. -/
inductive RChar where
  | lit (c : Char)
  | dot
deriving DecidableEq

/-- The regex metacharacters that are outside the modelled fragment. -/
def isRegexSpecial (c : Char) : Bool :=
  c = '\\' || c = '^' || c = '$' || c = '*' || c = '+' || c = '?' ||
  c = '(' || c = ')' || c = '[' || c = ']' || c = '\x7b' || c = '\x7d' || c = '|'

/-- Parse a pattern string of the modelled fragment: a dot becomes the
any-character atom, other metacharacters are rejected, everything else is a
literal. -/
def parseSimplePat : List Char → Option (List RChar)
  | [] => some []
  | c :: cs =>
    if c = '.' then (parseSimplePat cs).map (fun p => RChar.dot :: p)
    else if isRegexSpecial c then none
    else (parseSimplePat cs).map (fun p => RChar.lit c :: p)

/-- Match of one atom against one character. -/
def atomMatch : RChar → Char → Bool
  | RChar.lit c, d => c = d
  | RChar.dot, _ => true

/-- Match the whole atom sequence at the current position. -/
def matchHere : List RChar → List Char → Bool
  | [], _ => true
  | _ :: _, [] => false
  | a :: ps, c :: cs => atomMatch a c && matchHere ps cs

/-- re.search over the modelled fragment: try every start position. -/
def reSearch (p : List RChar) : List Char → Bool
  | [] => matchHere p []
  | c :: cs => matchHere p (c :: cs) || reSearch p cs

/-- pandas Series.str.contains for one cell, over the modelled fragment. -/
def pandasStrContains (pat s : String) : Bool :=
  match parseSimplePat pat.data with
  | some p => reSearch p s.data
  | none => false

/-- Plain substring containment of character lists: the notion of
"response contains the filter string" used by the specification. -/
def strContainsLit (pat : List Char) : List Char → Bool
  | [] => pat.isEmpty
  | c :: cs => pat.isPrefixOf (c :: cs) || strContainsLit pat cs

/-- One row of the DataFrame handed to filter_responses; every column may
hold NaN, modelled as none. -/
structure FRow where
  question : Option String
  response : Option String
  biosample_id : Option String
  accession_id : Option String
  source_url : Option String
deriving DecidableEq

/-- The composite id column built by filter_responses: the three identifier
columns joined with underscores, NaN filled with the empty string. -/
def compositeId (r : FRow) : String :=
  r.biosample_id.getD "" ++ "_" ++ r.accession_id.getD "" ++ "_" ++ r.source_url.getD ""

/-- The row-keeping test of filter_responses: the lowercased response must
match the (already lowercased) pattern; a NaN response never matches
(na=False). -/
def respMatches (pat : String) (r : FRow) : Bool :=
  match r.response with
  | none => false
  | some s => pandasStrContains pat (pyLower s)

/-- pandas Series.unique: the distinct values in order of first
appearance. -/
def uniqueFirstAux (seen : List String) : List String → List String
  | [] => []
  | x :: xs =>
    if x ∈ seen then uniqueFirstAux seen xs
    else x :: uniqueFirstAux (x :: seen) xs

/-- pandas Series.unique, starting from nothing seen. -/
def uniqueFirst (l : List String) : List String := uniqueFirstAux [] l

/-- filter_responses from Github-app.py: lowercase the filter, keep the rows
whose lowercased response matches it, build the composite id, and restrict
to the rows whose id is among the first n distinct ids. -/
def filter_responses (df : List FRow) (contains : String) (n : Nat) : List FRow :=
  let pat := pyLower contains
  let keep := df.filter (respMatches pat)
  let ids := (uniqueFirst (keep.map compositeId)).take n
  keep.filter (fun r => decide (compositeId r ∈ ids))

end AGP

namespace BiosampleScraper

/-- One row of the DEMO_DF table of biosample_scraper.py. -/
structure DemoRow where
  biosample_id : String
  question : String
  response : String
deriving DecidableEq

/-- DEMO_DF from biosample_scraper.py. -/
def DEMO_DF : List DemoRow :=
  [⟨"DEMO1", "Diet type", "Omnivore"⟩,
   ⟨"DEMO2", "Diet type", "Vegetarian"⟩,
   ⟨"DEMO3", "Diet type", "Vegan"⟩]

/-- The usage string printed on wrong arity. -/
def usageMsg : String := "Usage: python biosample_scraper.py input_ids.txt output.csv"

/-- One row of the output CSV. -/
structure OutRow where
  biosample_id : String
  question : String
  response : String
deriving DecidableEq

/-- The observable outcome of running the script: either the usage exit
with its status code and message, or the list of CSV data rows written. -/
inductive Outcome where
  | usageExit (code : Nat) (msg : String)
  | wroteCsv (rows : List OutRow)
deriving DecidableEq

/-- Reading the input file: one identifier per line, each line stripped,
blank lines dropped (the `if line.strip()` test). -/
def readIds (content : String) : List String :=
  ((AGP.splitOnChar '\n' content.data).map (fun l => String.mk (AGP.stripChars l))).filter
    (fun s => decide (s ≠ ""))

/-- main of biosample_scraper.py: argv holds the script name and the
positional arguments, content is the text of the input file. With arity
other than two positional arguments the script prints the usage string and
exits with status 1; otherwise it writes one CSV row per identifier and
demo row, attaching the identifier to each demo response. -/
def main (argv : List String) (content : String) : Outcome :=
  if argv.length ≠ 3 then Outcome.usageExit 1 usageMsg
  else
    Outcome.wroteCsv
      ((readIds content).flatMap
        (fun i => DEMO_DF.map (fun row => OutRow.mk i row.question row.response)))

end BiosampleScraper

namespace AGP

/-! ### Helper lemmas about the Python string primitives -/

theorem mem_rstripChars {c : Char} {l : List Char} (h : c ∈ rstripChars l) : c ∈ l := by
  induction l with
  | nil => simp [rstripChars] at h
  | cons a t ih =>
    rw [rstripChars] at h
    cases h2 : rstripChars t with
    | nil =>
      rw [h2] at h
      by_cases hws : isWS a
      · simp [hws] at h
      · simp [hws] at h
        simp [h]
    | cons b r =>
      rw [h2] at h
      rcases List.mem_cons.mp h with h3 | h3
      · simp [h3]
      · exact List.mem_cons_of_mem a (ih (h2 ▸ h3))

theorem rstripChars_length_le (l : List Char) : (rstripChars l).length ≤ l.length := by
  induction l with
  | nil => simp [rstripChars]
  | cons a t ih =>
    rw [rstripChars]
    cases h2 : rstripChars t with
    | nil =>
      by_cases hws : isWS a <;> simp [hws]
    | cons b r =>
      rw [h2] at ih
      simpa using ih

theorem rstripChars_idem (l : List Char) : rstripChars (rstripChars l) = rstripChars l := by
  induction l with
  | nil => rfl
  | cons a t ih =>
    cases h2 : rstripChars t with
    | nil =>
      have ha : rstripChars (a :: t) = if isWS a then [] else [a] := by
        rw [rstripChars, h2]
      rw [ha]
      by_cases hws : isWS a
      · simp [hws, rstripChars]
      · simp [hws, rstripChars]
    | cons b r =>
      rw [h2] at ih
      have ha : rstripChars (a :: t) = a :: b :: r := by rw [rstripChars, h2]
      rw [ha, rstripChars, ih]

theorem head?_rstripChars {l : List Char} {c : Char}
    (h : (rstripChars l).head? = some c) : l.head? = some c := by
  cases l with
  | nil => simp [rstripChars] at h
  | cons a t =>
    rw [rstripChars] at h
    cases h2 : rstripChars t with
    | nil =>
      rw [h2] at h
      by_cases hws : isWS a
      · simp [hws] at h
      · simp [hws] at h
        simp [h]
    | cons b r =>
      rw [h2] at h
      simp at h
      simp [h]

theorem rstripChars_eq_nil {l : List Char} (h : rstripChars l = []) :
    ∀ c ∈ l, isWS c = true := by
  induction l with
  | nil => simp
  | cons a t ih =>
    rw [rstripChars] at h
    cases h2 : rstripChars t with
    | nil =>
      rw [h2] at h
      intro c hc
      by_cases hws : isWS a
      · rcases List.mem_cons.mp hc with h3 | h3
        · simp [h3, hws]
        · exact ih h2 c h3
      · simp [hws] at h
    | cons b r => rw [h2] at h; simp at h

theorem head?_lstripChars {l : List Char} {c : Char}
    (h : (lstripChars l).head? = some c) : isWS c = false := by
  induction l with
  | nil => simp [lstripChars] at h
  | cons a t ih =>
    by_cases hws : isWS a
    · rw [lstripChars, List.dropWhile_cons] at h
      simp [hws] at h
      exact ih h
    · rw [lstripChars, List.dropWhile_cons] at h
      simp [hws] at h
      rw [← h]
      simpa using hws

theorem lstripChars_of_head {l : List Char}
    (h : ∀ c, l.head? = some c → isWS c = false) : lstripChars l = l := by
  cases l with
  | nil => rfl
  | cons a t =>
    rw [lstripChars, List.dropWhile_cons]
    simp [h a rfl]

theorem replaceInvalid_not_invalid (l : List Char) :
    ∀ c ∈ replaceInvalid l, isInvalidSheetChar c = false := by
  intro c hc
  rw [replaceInvalid, List.mem_map] at hc
  obtain ⟨d, _, rfl⟩ := hc
  by_cases hd : isInvalidSheetChar d
  · simp [hd]
    decide
  · simp [hd]

theorem replaceInvalid_eq_self {l : List Char}
    (h : ∀ c ∈ l, isInvalidSheetChar c = false) : replaceInvalid l = l := by
  induction l with
  | nil => rfl
  | cons a t ih =>
    rw [replaceInvalid, List.map_cons]
    rw [replaceInvalid] at ih
    simp [h a (by simp), ih (fun c hc => h c (List.mem_cons_of_mem a hc))]

theorem mem_stripChars {c : Char} {l : List Char} (h : c ∈ stripChars l) : c ∈ l := by
  rw [stripChars] at h
  have h2 : c ∈ List.dropWhile isWS l := mem_rstripChars h
  exact List.Sublist.mem h2 (List.dropWhile_sublist isWS)

theorem head?_stripChars_ws {l : List Char} {c : Char}
    (h : (stripChars l).head? = some c) : isWS c = false :=
  head?_lstripChars (head?_rstripChars h)

theorem head?_take31 {m : List Char} {c : Char}
    (h : (m.take 31).head? = some c) : m.head? = some c := by
  cases m with
  | nil => simp at h
  | cons a t => simpa using h

/-! ### Properties of sanitizeCore -/

theorem sanitizeCore_not_invalid (l : List Char) :
    ∀ c ∈ sanitizeCore l, isInvalidSheetChar c = false := by
  intro c hc
  rw [sanitizeCore] at hc
  exact replaceInvalid_not_invalid l c (mem_stripChars (List.mem_of_mem_take hc))

theorem sanitizeCore_head_ws {l : List Char} {c : Char}
    (h : (sanitizeCore l).head? = some c) : isWS c = false := by
  rw [sanitizeCore] at h
  exact head?_stripChars_ws (head?_take31 h)

theorem sanitizeCore_length_le (l : List Char) : (sanitizeCore l).length ≤ 31 := by
  rw [sanitizeCore]
  exact List.length_take_le 31 _

theorem sanitizeCore_fix {t : List Char}
    (h1 : ∀ c ∈ t, isInvalidSheetChar c = false)
    (h2 : ∀ c, t.head? = some c → isWS c = false)
    (h3 : rstripChars t = t) (h4 : t.length ≤ 31) :
    sanitizeCore t = t := by
  rw [sanitizeCore, replaceInvalid_eq_self h1, stripChars, lstripChars_of_head h2, h3,
    List.take_of_length_le h4]

theorem sanitizeCore_twice (l : List Char) :
    sanitizeCore (sanitizeCore l) = rstripChars (sanitizeCore l) := by
  conv_lhs => rw [sanitizeCore]
  rw [replaceInvalid_eq_self (sanitizeCore_not_invalid l), stripChars,
    lstripChars_of_head (fun c hc => sanitizeCore_head_ws hc)]
  exact List.take_of_length_le (le_trans (rstripChars_length_le _) (sanitizeCore_length_le l))

theorem sanitizeCore_third (l : List Char) :
    sanitizeCore (rstripChars (sanitizeCore l)) = rstripChars (sanitizeCore l) := by
  apply sanitizeCore_fix
  · intro c hc
    exact sanitizeCore_not_invalid l c (mem_rstripChars hc)
  · intro c hc
    exact sanitizeCore_head_ws (head?_rstripChars hc)
  · exact rstripChars_idem _
  · exact le_trans (rstripChars_length_le _) (sanitizeCore_length_le l)

end AGP

namespace AGP

/-- Claim C5, counterexample: an input consisting only of invalid characters
does NOT sanitize to the default placeholder name; the invalid character is
replaced by a dash, which survives the whitespace strip, so the result is
"-" and not "sheet". -/
theorem C5_counterexample :
    sanitize_sheet_name "*" = "-" ∧ ("-" : String) ≠ "sheet" := by
  constructor
  · decide
  · decide

/-- Claim C5 (amended): sanitize_sheet_name replaces each of the characters
colon, backslash, slash, question mark, star and square brackets with a
dash, strips whitespace, truncates to 31 characters, and returns the
placeholder "sheet" exactly when the replaced-and-stripped input is empty
(that is, when the input is empty or whitespace-only) - not for all-invalid
inputs, which become dashes. The output is never empty, never longer than
31 characters, and never contains an invalid character; "a/b:c*d" sanitizes
to "a-b-c-d", while the all-invalid "***" sanitizes to "---". -/
theorem C5_amended (s : String) :
    sanitize_sheet_name s ≠ "" ∧
    (sanitize_sheet_name s).length ≤ 31 ∧
    (∀ c ∈ (sanitize_sheet_name s).data, isInvalidSheetChar c = false) ∧
    (stripChars (replaceInvalid s.data) = [] → sanitize_sheet_name s = "sheet") ∧
    sanitize_sheet_name "a/b:c*d" = "a-b-c-d" ∧
    sanitize_sheet_name "***" = "---" := by
  by_cases h : sanitizeCore s.data = []
  · have hs : sanitize_sheet_name s = "sheet" := by simp [sanitize_sheet_name, h]
    refine ⟨by rw [hs]; decide, by rw [hs]; decide, by rw [hs]; decide, ?_, by decide, by decide⟩
    intro _
    exact hs
  · have hs : sanitize_sheet_name s = String.mk (sanitizeCore s.data) := by
      simp [sanitize_sheet_name, h]
    refine ⟨?_, ?_, ?_, ?_, by decide, by decide⟩
    · rw [hs]
      intro heq
      exact h (by simpa using congrArg String.data heq)
    · rw [hs]
      exact sanitizeCore_length_le s.data
    · rw [hs]
      intro c hc
      exact sanitizeCore_not_invalid s.data c hc
    · intro h0
      exact absurd (by simp [sanitizeCore, h0]) h

/-- Claim C5, witness: a whitespace-only input does hit the placeholder
branch of the amended claim. -/
theorem C5_witness : sanitize_sheet_name " " = "sheet" :=
  (C5_amended " ").2.2.2.1 (by decide)

/-- Claim C10, counterexample: sanitize_sheet_name is not idempotent. The
31-character truncation can expose trailing whitespace that the strip of a
second application removes: for the 32-character input below (a, thirty
spaces, b) one application yields "a" followed by thirty spaces, and a
second application yields "a". -/
theorem C10_counterexample :
    sanitize_sheet_name (sanitize_sheet_name "a                              b") ≠
      sanitize_sheet_name "a                              b" := by
  decide

/-- Claim C10 (amended): sanitize_sheet_name is idempotent from the second
application on: applying it three times equals applying it twice, for every
input. Idempotence as originally claimed fails only because the first
application's truncation can leave trailing whitespace. -/
theorem C10_amended (s : String) :
    sanitize_sheet_name (sanitize_sheet_name (sanitize_sheet_name s)) =
      sanitize_sheet_name (sanitize_sheet_name s) := by
  by_cases h : sanitizeCore s.data = []
  · have hs : sanitize_sheet_name s = "sheet" := by simp [sanitize_sheet_name, h]
    have hsheet : sanitize_sheet_name "sheet" = "sheet" := by decide
    rw [hs, hsheet, hsheet]
  · have hs : sanitize_sheet_name s = String.mk (sanitizeCore s.data) := by
      simp [sanitize_sheet_name, h]
    have h2 : sanitizeCore (sanitizeCore s.data) = rstripChars (sanitizeCore s.data) :=
      sanitizeCore_twice s.data
    have hne : rstripChars (sanitizeCore s.data) ≠ [] := by
      intro h0
      obtain ⟨a, t, hat⟩ := List.exists_cons_of_ne_nil h
      have hws : isWS a = false := sanitizeCore_head_ws (by rw [hat]; rfl)
      have hall := rstripChars_eq_nil h0 a (by rw [hat]; simp)
      rw [hws] at hall
      exact Bool.false_ne_true hall
    have hf2 : sanitize_sheet_name (sanitize_sheet_name s) =
        String.mk (rstripChars (sanitizeCore s.data)) := by
      rw [hs]
      simp [sanitize_sheet_name, h2, hne]
    have h3 : sanitizeCore (rstripChars (sanitizeCore s.data)) =
        rstripChars (sanitizeCore s.data) := sanitizeCore_third s.data
    rw [hf2]
    simp [sanitize_sheet_name, h3, hne]

end AGP


namespace AGP

/-! ### Helper lemmas about the table strategy -/

theorem le_tableWidth_foldl (rows : List (List String)) (a : Nat) :
    a ≤ rows.foldl (fun m r => max m r.length) a ∧
      ∀ r ∈ rows, r.length ≤ rows.foldl (fun m r => max m r.length) a := by
  induction rows generalizing a with
  | nil => simp
  | cons x xs ih =>
    constructor
    · exact le_trans (le_max_left a x.length) (ih (max a x.length)).1
    · intro r hr
      rcases List.mem_cons.mp hr with h | h
      · subst h
        exact le_trans (le_max_right a r.length) (ih (max a r.length)).1
      · exact (ih (max a x.length)).2 r h

theorem two_le_tableWidth_of_mem {rows : List (List String)} {r : List String}
    (hr : r ∈ rows) (h2 : 2 ≤ r.length) : 2 ≤ tableWidth rows :=
  le_trans h2 ((le_tableWidth_foldl rows 0).2 r hr)

theorem exists_wide_of_tableWidth_aux (rows : List (List String)) :
    ∀ a : Nat, 2 ≤ rows.foldl (fun m r => max m r.length) a →
      2 ≤ a ∨ ∃ r ∈ rows, 2 ≤ r.length := by
  induction rows with
  | nil =>
    intro a h
    exact Or.inl h
  | cons x xs ih =>
    intro a h
    rcases ih (max a x.length) h with h2 | ⟨r, hr, h3⟩
    · rcases le_max_iff.mp h2 with h4 | h4
      · exact Or.inl h4
      · exact Or.inr ⟨x, by simp, h4⟩
    · exact Or.inr ⟨r, List.mem_cons_of_mem x hr, h3⟩

theorem exists_wide_of_tableWidth {rows : List (List String)}
    (h : 2 ≤ tableWidth rows) : ∃ r ∈ rows, 2 ≤ r.length := by
  rcases exists_wide_of_tableWidth_aux rows 0 h with h2 | h2
  · omega
  · exact h2

theorem ne_nil_of_mem_keptRows {t : HtmlTable} {r : List String}
    (h : r ∈ keptRows t) : r ≠ [] := by
  have h2 := (List.mem_filter.mp h).2
  intro h0
  subst h0
  simp at h2

theorem tableSurvey_pos {t : HtmlTable} {ts : List HtmlTable}
    (h : 2 ≤ tableWidth (keptRows (bestTable t ts))) :
    tableSurvey (t :: ts) =
      some ((keptRows (bestTable t ts)).map (fun r => (r.get? 0, r.get? 1))) := by
  simp [tableSurvey, h]

theorem tableSurvey_neg {t : HtmlTable} {ts : List HtmlTable}
    (h : tableWidth (keptRows (bestTable t ts)) < 2) :
    tableSurvey (t :: ts) = none := by
  simp [tableSurvey, Nat.not_le.mpr h]

end AGP

namespace AGP

/-- Claim C1, counterexample: a selected table whose widest row has two
cells but which also contains a one-cell row does NOT discard that row;
pandas pads it, so a record with question "solo" and a missing (NaN)
response appears in the output, contradicting the claim that no record with
a missing field ever appears. -/
theorem C1_counterexample :
    (some "solo", (none : Option String)) ∈
      (parse_survey_page ⟨"", [[["q", "r"], ["solo"]]], []⟩ "u").rows := by
  decide

/-- Claim C1 (amended): in table-based extraction, each kept row of the
selected table contributes only its first two cell texts; rows with more
than two columns are truncated to the first two; a table whose widest row
has fewer than two cells is discarded entirely, and rows with no cells are
dropped. However, within a selected table a row with exactly one cell is
NOT discarded: it yields a record whose question is its single cell and
whose response is missing. The question field is never missing. -/
theorem C1_amended (t : HtmlTable) (ts : List HtmlTable) :
    (tableWidth (keptRows (bestTable t ts)) < 2 → tableSurvey (t :: ts) = none) ∧
    (2 ≤ tableWidth (keptRows (bestTable t ts)) →
      tableSurvey (t :: ts) =
        some ((keptRows (bestTable t ts)).map (fun r => (r.get? 0, r.get? 1)))) ∧
    (∀ qr ∈ (tableSurvey (t :: ts)).getD [], qr.1 ≠ none) ∧
    (∀ qr ∈ (tableSurvey (t :: ts)).getD [], qr.2 = none →
      ∃ cell, [cell] ∈ keptRows (bestTable t ts) ∧ qr.1 = some cell) := by
  refine ⟨fun h => tableSurvey_neg h, fun h => tableSurvey_pos h, ?_, ?_⟩
  · intro qr hqr
    by_cases hw : 2 ≤ tableWidth (keptRows (bestTable t ts))
    · rw [tableSurvey_pos hw] at hqr
      rw [Option.getD_some] at hqr
      obtain ⟨r, hr, rfl⟩ := List.mem_map.mp hqr
      have hne := ne_nil_of_mem_keptRows hr
      cases r with
      | nil => exact absurd rfl hne
      | cons a r2 => simp
    · rw [tableSurvey_neg (Nat.not_le.mp hw)] at hqr
      simp at hqr
  · intro qr hqr h2
    by_cases hw : 2 ≤ tableWidth (keptRows (bestTable t ts))
    · rw [tableSurvey_pos hw] at hqr
      rw [Option.getD_some] at hqr
      obtain ⟨r, hr, rfl⟩ := List.mem_map.mp hqr
      have hne := ne_nil_of_mem_keptRows hr
      cases r with
      | nil => exact absurd rfl hne
      | cons a r2 =>
        cases r2 with
        | nil => exact ⟨a, hr, rfl⟩
        | cons b r3 => simp at h2
    · rw [tableSurvey_neg (Nat.not_le.mp hw)] at hqr
      simp at hqr

/-- Claim C1, witness: a table with a two-cell row and a one-cell row
qualifies and is mapped row by row to the first two cells. -/
theorem C1_witness :
    2 ≤ tableWidth (keptRows (bestTable [["q", "r"], ["solo"]] [])) ∧
    tableSurvey [[["q", "r"], ["solo"]]] =
      some ((keptRows (bestTable [["q", "r"], ["solo"]] [])).map
        (fun r => (r.get? 0, r.get? 1))) :=
  ⟨by decide, (C1_amended [["q", "r"], ["solo"]] []).2.1 (by decide)⟩

/-- Claim C2: exactly one of the two extraction strategies contributes the
rows of parse_survey_page. When the table strategy yields rows, those rows
are the result and contain at least one fully populated (two-column) row;
when it yields nothing, the result is exactly the free-text rows. The
table strategy looks only at the table with the most rows (first maximal),
and it succeeds whenever that table has a row with at least two cells. -/
theorem C2_exclusive (doc : Doc) (url : String) :
    (∀ rs, tableSurvey doc.tables = some rs →
      (parse_survey_page doc url).rows = rs ∧
        ∃ qr ∈ rs, qr.1 ≠ none ∧ qr.2 ≠ none) ∧
    (tableSurvey doc.tables = none →
      (parse_survey_page doc url).rows = textSurvey doc.paraTexts) ∧
    (∀ t ts, doc.tables = t :: ts →
      tableSurvey doc.tables = tableSurvey [bestTable t ts] ∧
      ((∃ r ∈ keptRows (bestTable t ts), 2 ≤ r.length) →
        tableSurvey doc.tables ≠ none)) := by
  refine ⟨?_, ?_, ?_⟩
  · intro rs hrs
    refine ⟨by simp [parse_survey_page, hrs], ?_⟩
    cases hdt : doc.tables with
    | nil =>
      rw [hdt] at hrs
      simp [tableSurvey] at hrs
    | cons t ts =>
      rw [hdt] at hrs
      by_cases hw : 2 ≤ tableWidth (keptRows (bestTable t ts))
      · rw [tableSurvey_pos hw] at hrs
        have hrs2 := Option.some.inj hrs
        subst hrs2
        obtain ⟨r, hr, h2⟩ := exists_wide_of_tableWidth hw
        refine ⟨(r.get? 0, r.get? 1), List.mem_map.mpr ⟨r, hr, rfl⟩, ?_⟩
        cases r with
        | nil => simp at h2
        | cons a r2 =>
          cases r2 with
          | nil => simp at h2
          | cons b r3 => simp
      · rw [tableSurvey_neg (Nat.not_le.mp hw)] at hrs
        exact absurd hrs (by simp)
  · intro h
    simp [parse_survey_page, h]
  · intro t ts hdt
    constructor
    · rw [hdt]
      rfl
    · rintro ⟨r, hr, h2⟩
      rw [hdt, tableSurvey_pos (two_le_tableWidth_of_mem hr h2)]
      simp

/-- Claim C2, witness: a document whose only table has one two-cell row
takes the table branch. -/
theorem C2_witness :
    tableSurvey (Doc.mk "" [[["a", "b"]]] []).tables = some [(some "a", some "b")] ∧
    ((parse_survey_page (Doc.mk "" [[["a", "b"]]] []) "u").rows = [(some "a", some "b")] ∧
      ∃ qr ∈ [((some "a" : Option String), (some "b" : Option String))],
        qr.1 ≠ none ∧ qr.2 ≠ none) :=
  ⟨by decide, (C2_exclusive ⟨"", [[["a", "b"]]], []⟩ "u").1 [(some "a", some "b")] (by decide)⟩

end AGP

namespace AGP

/-! ### Helper lemmas about the free-text fallback -/

theorem takeWhile_not_colon (q r : List Char) (hq : ∀ c ∈ q, isColon c = false) :
    (q ++ ':' :: r).takeWhile (fun c => !isColon c) = q := by
  induction q with
  | nil => simp [List.takeWhile_cons, isColon]
  | cons a t ih =>
    have ha : isColon a = false := hq a (by simp)
    simp [List.takeWhile_cons, ha,
      ih (fun c hc => hq c (List.mem_cons_of_mem a hc))]

theorem dropWhile_not_colon (q r : List Char) (hq : ∀ c ∈ q, isColon c = false) :
    (q ++ ':' :: r).dropWhile (fun c => !isColon c) = ':' :: r := by
  induction q with
  | nil => simp [List.dropWhile_cons, isColon]
  | cons a t ih =>
    have ha : isColon a = false := hq a (by simp)
    simp [List.dropWhile_cons, ha,
      ih (fun c hc => hq c (List.mem_cons_of_mem a hc))]

theorem any_colon (q r : List Char) : (q ++ ':' :: r).any isColon = true := by
  simp [List.any_append, isColon]

/-- Claim C3: the free-text fallback splits each colon-bearing paragraph or
list-item text at the FIRST colon only, trimming whitespace on both sides,
so a response containing a colon survives intact (the question part q below
is colon-free, the response part r is arbitrary and may contain colons);
colon-free elements are skipped; and the document with no tables and the
two list items "Diet: Omnivore" and "NoColonHere" yields exactly the single
record (Diet, Omnivore). -/
theorem C3_first_colon (q r : List Char) (rest : List String) (url : String)
    (hq : ∀ c ∈ q, isColon c = false) :
    (parse_survey_page ⟨"", [], String.mk (q ++ ':' :: r) :: rest⟩ url).rows =
      (some (String.mk (stripChars q)), some (String.mk (stripChars r))) ::
        textSurvey rest ∧
    (∀ s : String, s.data.any isColon = false →
      textSurvey (s :: rest) = textSurvey rest) ∧
    (parse_survey_page ⟨"", [], ["Diet: Omnivore", "NoColonHere"]⟩ url).rows =
      [(some "Diet", some "Omnivore")] := by
  refine ⟨?_, ?_, ?_⟩
  case refine_3 =>
    show (tableSurvey ([] : List HtmlTable)).getD
        (textSurvey ["Diet: Omnivore", "NoColonHere"]) =
      [(some "Diet", some "Omnivore")]
    decide
  · show (tableSurvey []).getD (textSurvey (String.mk (q ++ ':' :: r) :: rest)) = _
    rw [show tableSurvey [] = none from rfl, Option.getD_none]
    conv_lhs => rw [textSurvey]
    rw [List.filterMap_cons]
    simp only [show (String.mk (q ++ ':' :: r)).data = q ++ ':' :: r from rfl,
      any_colon q r, takeWhile_not_colon q r hq, dropWhile_not_colon q r hq]
    simp [textSurvey]
  · intro s hs
    conv_lhs => rw [textSurvey]
    rw [List.filterMap_cons]
    simp [hs, textSurvey]

/-- Claim C3, witness: the instantiation with an empty question part and a
one-character response. -/
theorem C3_witness :
    (∀ c ∈ ([] : List Char), isColon c = false) ∧
    ((parse_survey_page ⟨"", [], String.mk ([] ++ ':' :: ['x']) :: []⟩ "u").rows =
        (some (String.mk (stripChars [])), some (String.mk (stripChars ['x']))) ::
          textSurvey [] ∧
      (∀ s : String, s.data.any isColon = false →
        textSurvey (s :: []) = textSurvey []) ∧
      (parse_survey_page ⟨"", [], ["Diet: Omnivore", "NoColonHere"]⟩ "u").rows =
        [(some "Diet", some "Omnivore")]) :=
  ⟨by simp, C3_first_colon [] ['x'] [] "u" (by simp)⟩

/-- Claim C7: a document with no qualifying table and no colon-bearing
paragraph or list-item text yields an empty row list, with the source_url
and the (possibly null) identifier columns still attached; the function is
total, so no exception is possible. -/
theorem C7_graceful_empty (doc : Doc) (url : String)
    (h1 : tableSurvey doc.tables = none)
    (h2 : ∀ s ∈ doc.paraTexts, s.data.any isColon = false) :
    (parse_survey_page doc url).rows = [] ∧
    (parse_survey_page doc url).source_url = url ∧
    (parse_survey_page doc url).biosample_id = (extractIds doc.fullText).1 ∧
    (parse_survey_page doc url).accession_id = (extractIds doc.fullText).2 := by
  refine ⟨?_, rfl, rfl, rfl⟩
  show (tableSurvey doc.tables).getD (textSurvey doc.paraTexts) = []
  rw [h1, Option.getD_none, textSurvey]
  apply List.filterMap_eq_nil_iff.mpr
  intro s hs
  simp [h2 s hs]

/-- Claim C7, witness: a document with a one-column table (which does not
qualify) and a colon-free paragraph yields zero rows. -/
theorem C7_witness :
    tableSurvey (Doc.mk "hello" [[["only"]]] ["no colon here"]).tables = none ∧
    (∀ s ∈ (Doc.mk "hello" [[["only"]]] ["no colon here"]).paraTexts,
      s.data.any isColon = false) ∧
    (parse_survey_page ⟨"hello", [[["only"]]], ["no colon here"]⟩ "u").rows = [] :=
  ⟨by decide, by decide,
    (C7_graceful_empty ⟨"hello", [[["only"]]], ["no colon here"]⟩ "u"
      (by decide) (by decide)).1⟩

/-- Claim C8: every record of the SurveyTable returned by parse_survey_page
carries the same biosample_id, the same accession_id and the same
source_url - the page-level values, with the source_url being the url the
page was fetched from. -/
theorem C8_uniform_metadata (doc : Doc) (url : String) (r1 r2 : SurveyRecord)
    (h1 : r1 ∈ (parse_survey_page doc url).records)
    (h2 : r2 ∈ (parse_survey_page doc url).records) :
    r1.biosample_id = r2.biosample_id ∧ r1.accession_id = r2.accession_id ∧
      r1.source_url = r2.source_url ∧ r1.source_url = url := by
  rw [SurveyTable.records] at h1 h2
  obtain ⟨p1, hp1, rfl⟩ := List.mem_map.mp h1
  obtain ⟨p2, hp2, rfl⟩ := List.mem_map.mp h2
  exact ⟨rfl, rfl, rfl, rfl⟩

/-- Claim C8, witness: both records of a two-row free-text page share the
page-level metadata. -/
theorem C8_witness :
    (⟨some "A", some "B", none, none, "u"⟩ : SurveyRecord) ∈
        (parse_survey_page ⟨"", [], ["A: B", "C: D"]⟩ "u").records ∧
    (⟨some "C", some "D", none, none, "u"⟩ : SurveyRecord) ∈
        (parse_survey_page ⟨"", [], ["A: B", "C: D"]⟩ "u").records ∧
    ((⟨some "A", some "B", none, none, "u"⟩ : SurveyRecord).biosample_id =
        (⟨some "C", some "D", none, none, "u"⟩ : SurveyRecord).biosample_id ∧
      (⟨some "A", some "B", none, none, "u"⟩ : SurveyRecord).accession_id =
        (⟨some "C", some "D", none, none, "u"⟩ : SurveyRecord).accession_id ∧
      (⟨some "A", some "B", none, none, "u"⟩ : SurveyRecord).source_url =
        (⟨some "C", some "D", none, none, "u"⟩ : SurveyRecord).source_url ∧
      (⟨some "A", some "B", none, none, "u"⟩ : SurveyRecord).source_url = "u") :=
  ⟨by decide, by decide,
    C8_uniform_metadata ⟨"", [], ["A: B", "C: D"]⟩ "u"
      ⟨some "A", some "B", none, none, "u"⟩ ⟨some "C", some "D", none, none, "u"⟩
      (by decide) (by decide)⟩

end AGP

namespace AGP

/-! ### Helper lemmas about the identifier searches -/

theorem matchLitI_append (pat : List Char) : ∀ (xs rest : List Char),
    xs.map Char.toLower = pat.map Char.toLower →
    matchLitI pat (xs ++ rest) = some rest := by
  induction pat with
  | nil =>
    intro xs rest h
    cases xs with
    | nil => rfl
    | cons x xt => simp at h
  | cons p ps ih =>
    intro xs rest h
    cases xs with
    | nil => simp at h
    | cons x xt =>
      simp only [List.map_cons, List.cons.injEq] at h
      rw [List.cons_append, matchLitI]
      simp [h.1, ih xt rest h.2]

theorem isSep_of_isId {c : Char} (h : isIdChar c = true) : isSepChar c = false := by
  cases hb : isSepChar c with
  | false => rfl
  | true =>
    exfalso
    rw [isSepChar] at hb
    simp only [Bool.or_eq_true, decide_eq_true_eq] at hb
    rcases hb with (h1 | h1) | h1 <;> subst h1 <;> exact absurd h (by decide)

theorem takeWhile_all {p : Char → Bool} {l : List Char}
    (h : ∀ c ∈ l, p c = true) : l.takeWhile p = l :=
  List.takeWhile_eq_self_iff.mpr h

theorem label_search_hit (pat lab tok : List Char) (tokP : Char → Bool)
    (hpat : pat ≠ [])
    (hlab : lab.map Char.toLower = pat.map Char.toLower)
    (htok : tok ≠ [])
    (hall : ∀ c ∈ tok, tokP c = true)
    (hsep : ∀ c ∈ tok, isSepChar c = false) :
    reSearchWith (matchLabelTok pat tokP) (lab ++ ':' :: ' ' :: tok) = some tok := by
  have hm : matchLabelTok pat tokP (lab ++ ':' :: ' ' :: tok) = some tok := by
    rw [matchLabelTok, matchLitI_append pat lab (':' :: ' ' :: tok) hlab]
    obtain ⟨c, t, rfl⟩ := List.exists_cons_of_ne_nil htok
    have hc : isSepChar c = false := hsep c (by simp)
    have hseps : (':' :: ' ' :: c :: t).takeWhile isSepChar = [':', ' '] := by
      have h1 : isSepChar ':' = true := by decide
      have h2 : isSepChar ' ' = true := by decide
      simp [List.takeWhile_cons, h1, h2, hc]
    simp only [hseps]
    have htw : (c :: t).takeWhile tokP = c :: t := takeWhile_all hall
    simp [htw]
  have hlabne : lab ≠ [] := by
    intro h0
    subst h0
    cases pat with
    | nil => exact hpat rfl
    | cons p ps => simp at hlab
  obtain ⟨a, lab2, rfl⟩ := List.exists_cons_of_ne_nil hlabne
  rw [List.cons_append, reSearchWith, ← List.cons_append, hm]

/-- Claim C6: identifier extraction matches labels case-insensitively. For
every case variant lab of the label "Biosample" and every non-empty token
tok of identifier characters, a document whose text is lab, a colon, a
space and tok yields biosample_id = tok - in particular "Biosample:
AGP123456" in any letter case yields AGP123456. When no Biosample label is
present, a "Sample ID" or "Barcode" label supplies the identifier instead;
an "Accession" label (any case) supplies accession_id; and text with no
label at all yields null identifiers, not an error. -/
theorem C6_case_insensitive_ids (lab tok : List Char) (url : String)
    (hlab : lab.map Char.toLower = "Biosample".data.map Char.toLower)
    (htok : tok ≠ []) (hall : ∀ c ∈ tok, isIdChar c = true) :
    (parse_survey_page ⟨String.mk (lab ++ ':' :: ' ' :: tok), [], []⟩ url).biosample_id =
      some (String.mk tok) ∧
    (parse_survey_page ⟨"Sample ID: X.1", [], []⟩ url).biosample_id = some "X.1" ∧
    (parse_survey_page ⟨"Barcode: B-2", [], []⟩ url).biosample_id = some "B-2" ∧
    (parse_survey_page ⟨"Sample ID: S7 Biosample: B9", [], []⟩ url).biosample_id =
      some "B9" ∧
    (parse_survey_page ⟨"ACCESSION: NC_0001.2", [], []⟩ url).accession_id =
      some "NC_0001.2" ∧
    (parse_survey_page ⟨"hello world", [], []⟩ url).biosample_id = none ∧
    (parse_survey_page ⟨"hello world", [], []⟩ url).accession_id = none := by
  refine ⟨?_, ?_, ?_, ?_, ?_, ?_, ?_⟩
  case refine_2 =>
    show (extractIds "Sample ID: X.1").1 = some "X.1"
    decide
  case refine_3 =>
    show (extractIds "Barcode: B-2").1 = some "B-2"
    decide
  case refine_4 =>
    show (extractIds "Sample ID: S7 Biosample: B9").1 = some "B9"
    decide
  case refine_5 =>
    show (extractIds "ACCESSION: NC_0001.2").2 = some "NC_0001.2"
    decide
  case refine_6 =>
    show (extractIds "hello world").1 = none
    decide
  case refine_7 =>
    show (extractIds "hello world").2 = none
    decide
  case refine_1 =>
    show (extractIds (String.mk (lab ++ ':' :: ' ' :: tok))).1 = some (String.mk tok)
    have hb : biosampleSearch (lab ++ ':' :: ' ' :: tok) = some tok :=
      label_search_hit "Biosample".data lab tok isIdChar (by decide) hlab htok hall
        (fun c hc => isSep_of_isId (hall c hc))
    rw [extractIds]
    simp only [show (String.mk (lab ++ ':' :: ' ' :: tok)).data =
      lab ++ ':' :: ' ' :: tok from rfl]
    rw [hb]

/-- Claim C6, witness: a mixed-case Biosample label with the token
AGP123456. -/
theorem C6_witness :
    ("bIoSaMpLe".data.map Char.toLower = "Biosample".data.map Char.toLower) ∧
    ("AGP123456".data ≠ []) ∧ (∀ c ∈ "AGP123456".data, isIdChar c = true) ∧
    (parse_survey_page
        ⟨String.mk ("bIoSaMpLe".data ++ ':' :: ' ' :: "AGP123456".data), [], []⟩
        "u").biosample_id = some (String.mk "AGP123456".data) :=
  ⟨by decide, by decide, by decide,
    (C6_case_insensitive_ids "bIoSaMpLe".data "AGP123456".data "u"
      (by decide) (by decide) (by decide)).1⟩

end AGP

namespace AGP

/-! ### Helper lemmas about the modelled regex fragment -/

theorem parseSimplePat_lits (l : List Char)
    (h : ∀ c ∈ l, c ≠ '.' ∧ isRegexSpecial c = false) :
    parseSimplePat l = some (l.map RChar.lit) := by
  induction l with
  | nil => rfl
  | cons c cs ih =>
    obtain ⟨h1, h2⟩ := h c (by simp)
    rw [parseSimplePat]
    simp [h1, h2, ih (fun d hd => h d (List.mem_cons_of_mem c hd))]

theorem matchHere_lits (pat : List Char) : ∀ s : List Char,
    matchHere (pat.map RChar.lit) s = pat.isPrefixOf s := by
  induction pat with
  | nil =>
    intro s
    cases s <;> simp [matchHere, List.isPrefixOf]
  | cons p ps ih =>
    intro s
    cases s with
    | nil => simp [matchHere, List.isPrefixOf]
    | cons c cs =>
      simp only [List.map_cons, matchHere, List.isPrefixOf, atomMatch]
      by_cases hpc : p = c
      · subst hpc
        simp [ih]
      · simp [hpc, beq_iff_eq]

theorem reSearch_lits (pat : List Char) : ∀ s : List Char,
    reSearch (pat.map RChar.lit) s = strContainsLit pat s := by
  intro s
  induction s with
  | nil =>
    rw [reSearch, strContainsLit]
    cases pat <;> simp [matchHere]
  | cons c cs ih =>
    rw [reSearch, strContainsLit, matchHere_lits, ih]

/-- Claim C9, counterexample: filter_responses does NOT keep exactly the
rows whose response contains the filter string. pandas str.contains treats
the filter as a regular expression, so the filter "a.b" keeps a row whose
response is "axb" even though "axb" does not contain the substring
"a.b". -/
theorem C9_counterexample :
    filter_responses [⟨some "Q", some "axb", some "B1", some "A1", some "u"⟩] "a.b" 1 =
      [⟨some "Q", some "axb", some "B1", some "A1", some "u"⟩] ∧
    strContainsLit (pyLower "a.b").data (pyLower "axb").data = false := by
  constructor
  · decide
  · decide

/-- Claim C9 (amended): for a filter string without regex metacharacters
(in particular without a dot), filter_responses keeps exactly the rows
whose lowercased response contains the lowercased filter as a substring -
rows with a missing response are never kept - and then restricts the result
to the rows whose composite identifier (biosample_id, accession_id and
source_url joined with underscores, missing parts as empty strings) is
among the first n distinct composite identifiers of the kept rows in row
order. For filter strings with metacharacters the filter is interpreted as
a regular expression instead, which is what the counterexample exhibits. -/
theorem C9_amended (df : List FRow) (flt : String) (n : Nat)
    (h : ∀ c ∈ (pyLower flt).data, c ≠ '.' ∧ isRegexSpecial c = false) :
    (filter_responses df flt n =
      (df.filter (fun r => match r.response with
          | none => false
          | some s => strContainsLit (pyLower flt).data (pyLower s).data)).filter
        (fun r => decide (compositeId r ∈
          (uniqueFirst ((df.filter (fun r => match r.response with
              | none => false
              | some s => strContainsLit (pyLower flt).data (pyLower s).data)).map
            compositeId)).take n))) ∧
    ∀ r ∈ filter_responses df flt n, r.response ≠ none := by
  have hmatch : ∀ r : FRow, respMatches (pyLower flt) r =
      (match r.response with
       | none => false
       | some s => strContainsLit (pyLower flt).data (pyLower s).data) := by
    intro r
    cases hr : r.response with
    | none => simp [respMatches, hr]
    | some s =>
      have hp := parseSimplePat_lits (pyLower flt).data h
      simp [respMatches, hr, pandasStrContains, hp, reSearch_lits]
  have hkeep : df.filter (respMatches (pyLower flt)) =
      df.filter (fun r => match r.response with
        | none => false
        | some s => strContainsLit (pyLower flt).data (pyLower s).data) :=
    List.filter_congr (fun r _ => hmatch r)
  constructor
  · show (df.filter (respMatches (pyLower flt))).filter
        (fun r => decide (compositeId r ∈
          (uniqueFirst ((df.filter (respMatches (pyLower flt))).map compositeId)).take n)) = _
    rw [hkeep]
  · intro r hr
    have hr1 : r ∈ df.filter (respMatches (pyLower flt)) :=
      (List.mem_filter.mp hr).1
    have h3 := (List.mem_filter.mp hr1).2
    intro h0
    simp [respMatches, h0] at h3

/-- Claim C9, witness: a metacharacter-free filter on a one-row table; the
kept row has a present response. -/
theorem C9_witness :
    (∀ c ∈ (pyLower "ab").data, c ≠ '.' ∧ isRegexSpecial c = false) ∧
    ∀ r ∈ filter_responses [⟨some "Q", some "xaby", some "B", none, some "u"⟩] "ab" 1,
      r.response ≠ none :=
  ⟨by decide,
    (C9_amended [⟨some "Q", some "xaby", some "B", none, some "u"⟩] "ab" 1 (by decide)).2⟩

end AGP

namespace BiosampleScraper

/-! ### Helper lemmas about the batch script -/

theorem rows_length (ids : List String) :
    (ids.flatMap
      (fun i => DEMO_DF.map (fun row => OutRow.mk i row.question row.response))).length =
      3 * ids.length := by
  induction ids with
  | nil => rfl
  | cons a t ih =>
    have hc : ((a :: t).flatMap
        (fun i => DEMO_DF.map (fun row => OutRow.mk i row.question row.response))) =
        (DEMO_DF.map (fun row => OutRow.mk a row.question row.response)) ++
          t.flatMap (fun i => DEMO_DF.map (fun row => OutRow.mk i row.question row.response)) :=
      rfl
    rw [hc, List.length_append, ih]
    simp [DEMO_DF]
    omega

theorem rows_ids (ids : List String) :
    (ids.flatMap
      (fun i => DEMO_DF.map (fun row => OutRow.mk i row.question row.response))).map
        (fun r => r.biosample_id) = ids.flatMap (fun i => [i, i, i]) := by
  induction ids with
  | nil => rfl
  | cons a t ih =>
    have hc : ((a :: t).flatMap
        (fun i => DEMO_DF.map (fun row => OutRow.mk i row.question row.response))) =
        (DEMO_DF.map (fun row => OutRow.mk a row.question row.response)) ++
          t.flatMap (fun i => DEMO_DF.map (fun row => OutRow.mk i row.question row.response)) :=
      rfl
    have hc2 : (a :: t).flatMap (fun i => [i, i, i]) =
        [a, a, a] ++ t.flatMap (fun i => [i, i, i]) := rfl
    rw [hc, hc2, List.map_append, ih]
    rfl

/-- Claim C4: the batch entry point exits with status 1 and the usage
message whenever invoked with other than exactly two positional arguments
(argv holds the script name plus the positional arguments). Otherwise it
always succeeds, writing exactly one CSV row per (identifier, demo-response)
pair - 3 rows per identifier, each row's biosample_id being its source
identifier - and the concrete input with lines S1 and S2 yields exactly the
6 expected rows. -/
theorem C4_batch :
    (∀ argv content, argv.length ≠ 3 →
      main argv content = Outcome.usageExit 1 usageMsg) ∧
    (∀ p i o content, ∃ rows,
      main [p, i, o] content = Outcome.wroteCsv rows ∧
      rows.length = 3 * (readIds content).length ∧
      rows.map (fun r => r.biosample_id) =
        (readIds content).flatMap (fun id => [id, id, id])) ∧
    main ["prog", "in.txt", "out.csv"] "S1\nS2\n" =
      Outcome.wroteCsv
        [⟨"S1", "Diet type", "Omnivore"⟩, ⟨"S1", "Diet type", "Vegetarian"⟩,
         ⟨"S1", "Diet type", "Vegan"⟩, ⟨"S2", "Diet type", "Omnivore"⟩,
         ⟨"S2", "Diet type", "Vegetarian"⟩, ⟨"S2", "Diet type", "Vegan"⟩] := by
  refine ⟨?_, ?_, by decide⟩
  · intro argv content h
    simp [main, h]
  · intro p i o content
    refine ⟨_, ?_, rows_length (readIds content), rows_ids (readIds content)⟩
    simp [main]

/-- Claim C4, witness: one positional argument triggers the usage exit. -/
theorem C4_witness :
    (List.length ["onlyone"] ≠ 3) ∧
    main ["onlyone"] "" = Outcome.usageExit 1 usageMsg :=
  ⟨by decide, C4_batch.1 ["onlyone"] "" (by decide)⟩

end BiosampleScraper
